import Mathlib

/-!
Verification of the robomaster repository's result decoding, tag codec,
camera video-callback lifecycle, and connection orchestration against its
natural-language specification.  Go code is shallowly embedded: machine
integers become Nat/Int, JSON values become an inductive type, the native
bridge and the condition variable become explicit environments/traces.
-/

namespace Robomaster

/-! ## JSON value model

Models the Go `any` values produced by `encoding/json.Unmarshal`: JSON
null, booleans, numbers (float64, modelled exactly as rationals), strings,
arrays and objects (`map[string]interface{}`, modelled as an association
list with the unique keys of the map). -/

inductive JValue where
  | null
  | bool (b : Bool)
  | num (q : Rat)
  | str (s : String)
  | arr (xs : List JValue)
  | obj (fields : List (String × JValue))

/-- Field lookup in an unmarshalled JSON object (Go map indexing
`outerValue["value"]`; map keys are unique, so first match is the match). -/
def lookupField (fields : List (String × JValue)) (k : String) : Option JValue :=
  fields.lookup k

/-! ## Key (src/unity/key, referenced from src/unity/result/result.go)

Modelled from the spec: the key package is not under src/ (only its
callers are).  Per the spec, a Key is an immutable descriptor identified
by its numeric sub-type, drawn from a fixed pre-registered catalog, and
`FromSubType` fails for a sub-type not in the catalog.  The catalog
contents are not listed in src/, so the definitions are parameterized by
the catalog membership predicate `cat`. -/

structure Key where
  subType : Nat
deriving DecidableEq, Repr

/-- Modelled from the spec: `key.FromSubType` succeeds exactly on
catalog-registered sub-types, returning the Key with that sub-type. -/
def FromSubType (cat : Nat → Bool) (id : Nat) : Option Key :=
  if cat id then some ⟨id⟩ else none

/-! ## Result (src/unity/result/result.go) -/

/-- Result of an operation on a key (`result.Result`).  `key` is an
Option because the Go field is a nullable pointer (nil after a decode
failure); `tag` is a uint64, `errorCode` an int32, both within range by
construction from JSON. -/
structure Result where
  key : Option Key
  tag : Nat
  errorCode : Int
  errorDesc : String
  value : JValue

/-- Constructor `result.New`. -/
def Result.New (key : Option Key) (tag : Nat) (errorCode : Int)
    (errorDesc : String) (value : JValue) : Result :=
  ⟨key, tag, errorCode, errorDesc, value⟩

/-- The envelope `jsonResult{Key uint32, Tag uint64, Error int32, Value any}`
that `NewFromJSON` unmarshals the input bytes into. -/
structure JsonEnvelope where
  Key : Nat
  Tag : Nat
  Error : Int
  Value : JValue

/-- Input to `NewFromJSON`, abstracting the byte slice at the point after
`encoding/json` (standard library, external) has run: the bytes are empty,
or fail to unmarshal, or parse into an envelope. -/
inductive JsonInput where
  | empty
  | malformed (msg : String)
  | parsed (env : JsonEnvelope)

/-- `result.NewFromJSON`: decodes a JSON envelope into a Result, reporting
every failure inside the Result itself (never panicking or propagating an
error).  Error descriptions keep the Sprintf prefixes of the source; the
rendering of embedded payloads (`%v` of a map) is elided.  The catalog
predicate `cat` stands for the fixed key catalog (see `FromSubType`). -/
def NewFromJSON (cat : Nat → Bool) (input : JsonInput) : Result :=
  match input with
  | .empty =>
      { key := none, tag := 0, errorCode := -1,
        errorDesc := "empty or nil json data", value := .null }
  | .malformed msg =>
      { key := none, tag := 0, errorCode := -1,
        errorDesc := "error unmarshalling json data: " ++ msg, value := .null }
  | .parsed jr =>
      match FromSubType cat jr.Key with
      | none =>
          { key := none, tag := 0, errorCode := -1,
            errorDesc := "error creating key from sub type " ++ toString jr.Key,
            value := .null }
      | some k =>
          let errorDesc := if jr.Error ≠ 0 then "error " ++ toString jr.Error else ""
          match jr.Value with
          | .obj fields =>
              match lookupField fields "value" with
              | none =>
                  { key := none, tag := 0, errorCode := -1,
                    errorDesc := "value field not found", value := .null }
              | some v =>
                  { key := some k, tag := jr.Tag, errorCode := jr.Error,
                    errorDesc := errorDesc, value := v }
          | other =>
              { key := some k, tag := jr.Tag, errorCode := jr.Error,
                errorDesc := errorDesc, value := other }

/-- `Result.Succeeded`: true iff the error code is 0. -/
def Result.Succeeded (r : Result) : Bool :=
  r.errorCode == 0

/-- `Result.SetKey`. -/
def Result.SetKey (r : Result) (key : Option Key) : Result :=
  { r with key := key }

/-- `Result.SetErrorCode`. -/
def Result.SetErrorCode (r : Result) (errorCode : Int) : Result :=
  { r with errorCode := errorCode }

/-- `Result.SetErrorDesc`. -/
def Result.SetErrorDesc (r : Result) (errorDesc : String) : Result :=
  { r with errorDesc := errorDesc }

/-- `Result.SetValue`. -/
def Result.SetValue (r : Result) (value : JValue) : Result :=
  { r with value := value }

/-- `Result.MarshalJSON`: builds the envelope with the key sub-type, tag,
error code, and the value wrapped one level inside `jsonResultValue`
(a `{"value": ...}` object).  Returns none when `r.key` is nil (the Go
code would dereference a nil pointer there). -/
def Result.MarshalJSON (r : Result) : Option JsonEnvelope :=
  r.key.map fun k =>
    { Key := k.subType, Tag := r.tag, Error := r.errorCode,
      Value := .obj [("value", r.value)] }

/-! ## Tag codec (src/example/example.go, callbackHandler) -/

/-- Modelled from the spec: the encode side of the tag codec lives outside
src/; the spec fixes the layout as
`(dataTypeDiscriminator << 56) | sequenceNumber(48 bits)`. -/
def encodeTag (d s : Nat) : Nat :=
  (d <<< 56) ||| s

/-- Discriminator extraction from `callbackHandler`:
`dataType := (tag >> 56) & 0xff`. -/
def decodeDataType (tag : Nat) : Nat :=
  (tag >>> 56) &&& 0xff

/-- Sequence extraction from `callbackHandler`:
`tag = tag & 0x0000ffffffffffff`. -/
def decodeSequence (tag : Nat) : Nat :=
  tag &&& 0x0000ffffffffffff

/-! ## Mutation sequences on Result (for the Succeeded invariant) -/

/-- One mutator call on a Result. -/
inductive ResultOp where
  | setKey (k : Option Key)
  | setErrorCode (c : Int)
  | setErrorDesc (d : String)
  | setValue (v : JValue)

/-- Apply one mutator. -/
def applyOp (r : Result) : ResultOp → Result
  | .setKey k => r.SetKey k
  | .setErrorCode c => r.SetErrorCode c
  | .setErrorDesc d => r.SetErrorDesc d
  | .setValue v => r.SetValue v

/-- Apply a sequence of mutators in order. -/
def applyOps (r : Result) (ops : List ResultOp) : Result :=
  ops.foldl applyOp r

/-- Scalar JSON values: the shapes that survive a marshal/unmarshal cycle
unchanged in Go (boolean, string, float64, nil). -/
def JValue.isScalar : JValue → Bool
  | .null => true
  | .bool _ => true
  | .num _ => true
  | .str _ => true
  | _ => false

/-! ## Theorems for the Result value model -/

lemma append_ne_empty_of_left_pos (s t : String) (h : 0 < s.length) :
    s ++ t ≠ "" := by
  intro hc
  have hl := congrArg String.length hc
  rw [String.length_append] at hl
  have h0 : ("" : String).length = 0 := rfl
  rw [h0] at hl
  omega

lemma desc_ne_empty (E : Int) (hE : E ≠ 0) :
    (if E ≠ 0 then "error " ++ toString E else "") ≠ "" := by
  rw [if_pos hE]
  exact append_ne_empty_of_left_pos "error " _ (by decide)

/-- C1: decoding the envelope `Key 5, Tag 42, Error 0, Value {"value": true}`
yields a succeeded Result with tag 42 and boolean value true; in general,
when the envelope Value is a JSON object with a "value" member the decoded
value is exactly that member's content (unwrapped once, never twice), and
when the Value is not a JSON object it is taken as-is. -/
theorem c1_decode_unwraps_exactly_once (cat : Nat → Bool) (h5 : cat 5 = true) :
    ((NewFromJSON cat (.parsed ⟨5, 42, 0, .obj [("value", .bool true)]⟩)).Succeeded = true
      ∧ (NewFromJSON cat (.parsed ⟨5, 42, 0, .obj [("value", .bool true)]⟩)).tag = 42
      ∧ (NewFromJSON cat (.parsed ⟨5, 42, 0, .obj [("value", .bool true)]⟩)).value
          = JValue.bool true)
    ∧ (∀ env fields v, cat env.Key = true → env.Value = JValue.obj fields →
        lookupField fields "value" = some v →
        (NewFromJSON cat (.parsed env)).value = v)
    ∧ (∀ env, cat env.Key = true → (∀ fields, env.Value ≠ JValue.obj fields) →
        (NewFromJSON cat (.parsed env)).value = env.Value) := by
  refine ⟨⟨?_, ?_, ?_⟩, ?_, ?_⟩
  · simp [NewFromJSON, FromSubType, h5, lookupField, Result.Succeeded]
  · simp [NewFromJSON, FromSubType, h5, lookupField]
  · simp [NewFromJSON, FromSubType, h5, lookupField]
  · rintro ⟨K, T, E, V⟩ fields v hcat hval hlook
    simp only at hval
    subst hval
    simp [NewFromJSON, FromSubType, hcat, hlook]
  · rintro ⟨K, T, E, V⟩ hcat hnot
    simp only at hcat hnot ⊢
    cases V with
    | obj fields => exact absurd rfl (hnot fields)
    | null => simp [NewFromJSON, FromSubType, hcat]
    | bool b => simp [NewFromJSON, FromSubType, hcat]
    | num q => simp [NewFromJSON, FromSubType, hcat]
    | str s => simp [NewFromJSON, FromSubType, hcat]
    | arr xs => simp [NewFromJSON, FromSubType, hcat]

/-- Witness for C1 at the concrete catalog containing sub-type 5. -/
theorem c1_decode_unwraps_exactly_once_witness :
    ((fun id => id == 5) 5 = true)
    ∧ ((NewFromJSON (fun id => id == 5)
          (.parsed ⟨5, 42, 0, .obj [("value", .bool true)]⟩)).Succeeded = true
        ∧ (NewFromJSON (fun id => id == 5)
            (.parsed ⟨5, 42, 0, .obj [("value", .bool true)]⟩)).tag = 42
        ∧ (NewFromJSON (fun id => id == 5)
            (.parsed ⟨5, 42, 0, .obj [("value", .bool true)]⟩)).value
            = JValue.bool true)
    ∧ (NewFromJSON (fun id => id == 5)
        (.parsed ⟨5, 77, 0,
          .obj [("value", .obj [("value", .bool true)])]⟩)).value
        = JValue.obj [("value", .bool true)] :=
  ⟨rfl,
   (c1_decode_unwraps_exactly_once (fun id => id == 5) rfl).1,
   (c1_decode_unwraps_exactly_once (fun id => id == 5) rfl).2.1
     ⟨5, 77, 0, .obj [("value", .obj [("value", .bool true)])]⟩
     [("value", .obj [("value", .bool true)])]
     (.obj [("value", .bool true)]) rfl rfl rfl⟩

/-- C2: every decode failure is captured inside the Result: empty input,
unmarshal failure, unknown key sub-type and a wrapper object missing its
"value" member all give a non-zero error code and non-empty description;
a well-formed envelope with non-zero Error gives Succeeded false and a
non-empty description (concretely for Key 5, Tag 42, Error 7, Value null). -/
theorem c2_errors_captured_inside_result (cat : Nat → Bool) :
    ((NewFromJSON cat .empty).errorCode ≠ 0
      ∧ (NewFromJSON cat .empty).errorDesc ≠ "")
    ∧ (∀ msg, (NewFromJSON cat (.malformed msg)).errorCode ≠ 0
        ∧ (NewFromJSON cat (.malformed msg)).errorDesc ≠ "")
    ∧ (∀ env, cat env.Key = false →
        (NewFromJSON cat (.parsed env)).errorCode ≠ 0
          ∧ (NewFromJSON cat (.parsed env)).errorDesc ≠ "")
    ∧ (∀ env fields, cat env.Key = true → env.Value = JValue.obj fields →
        lookupField fields "value" = none →
        (NewFromJSON cat (.parsed env)).errorCode ≠ 0
          ∧ (NewFromJSON cat (.parsed env)).errorDesc ≠ "")
    ∧ (∀ env, env.Error ≠ 0 →
        (NewFromJSON cat (.parsed env)).Succeeded = false
          ∧ (NewFromJSON cat (.parsed env)).errorDesc ≠ "")
    ∧ ((NewFromJSON cat (.parsed ⟨5, 42, 7, .null⟩)).Succeeded = false
        ∧ (NewFromJSON cat (.parsed ⟨5, 42, 7, .null⟩)).errorDesc ≠ "") := by
  have hprefix : ∀ t : String, "error " ++ t ≠ "" := fun t =>
    append_ne_empty_of_left_pos "error " t (by decide)
  refine ⟨⟨by simp [NewFromJSON], by simp [NewFromJSON]⟩, ?_, ?_, ?_, ?_, ?_⟩
  · intro msg
    refine ⟨by simp [NewFromJSON], ?_⟩
    exact append_ne_empty_of_left_pos "error unmarshalling json data: " msg (by decide)
  · rintro ⟨K, T, E, V⟩ hcat
    simp only at hcat
    refine ⟨by simp [NewFromJSON, FromSubType, hcat], ?_⟩
    simp only [NewFromJSON, FromSubType, hcat]
    exact append_ne_empty_of_left_pos "error creating key from sub type " _ (by decide)
  · rintro ⟨K, T, E, V⟩ fields hcat hval hlook
    simp only at hcat hval
    subst hval
    refine ⟨by simp [NewFromJSON, FromSubType, hcat, hlook], ?_⟩
    simp [NewFromJSON, FromSubType, hcat, hlook]
  · rintro ⟨K, T, E, V⟩ hE
    simp only at hE
    by_cases hcat : cat K
    · cases V with
      | obj fields =>
          cases hlook : lookupField fields "value" with
          | none =>
              refine ⟨by simp [NewFromJSON, FromSubType, hcat, hlook, Result.Succeeded], ?_⟩
              simp [NewFromJSON, FromSubType, hcat, hlook]
          | some v =>
              refine ⟨?_, ?_⟩
              · simp [NewFromJSON, FromSubType, hcat, hlook, Result.Succeeded, hE]
              · simp only [NewFromJSON, FromSubType, hcat, if_true, hlook]
                exact desc_ne_empty E hE
      | null =>
          refine ⟨by simp [NewFromJSON, FromSubType, hcat, Result.Succeeded, hE], ?_⟩
          simp only [NewFromJSON, FromSubType, hcat, if_true]
          exact desc_ne_empty E hE
      | bool b =>
          refine ⟨by simp [NewFromJSON, FromSubType, hcat, Result.Succeeded, hE], ?_⟩
          simp only [NewFromJSON, FromSubType, hcat, if_true]
          exact desc_ne_empty E hE
      | num q =>
          refine ⟨by simp [NewFromJSON, FromSubType, hcat, Result.Succeeded, hE], ?_⟩
          simp only [NewFromJSON, FromSubType, hcat, if_true]
          exact desc_ne_empty E hE
      | str s =>
          refine ⟨by simp [NewFromJSON, FromSubType, hcat, Result.Succeeded, hE], ?_⟩
          simp only [NewFromJSON, FromSubType, hcat, if_true]
          exact desc_ne_empty E hE
      | arr xs =>
          refine ⟨by simp [NewFromJSON, FromSubType, hcat, Result.Succeeded, hE], ?_⟩
          simp only [NewFromJSON, FromSubType, hcat, if_true]
          exact desc_ne_empty E hE
    · simp only [Bool.not_eq_true] at hcat
      refine ⟨by simp [NewFromJSON, FromSubType, hcat, Result.Succeeded], ?_⟩
      simp only [NewFromJSON, FromSubType, hcat]
      exact append_ne_empty_of_left_pos "error creating key from sub type " _ (by decide)
  · by_cases hcat : cat 5
    · refine ⟨by simp [NewFromJSON, FromSubType, hcat, Result.Succeeded], ?_⟩
      simp only [NewFromJSON, FromSubType, hcat, if_true]
      exact desc_ne_empty 7 (by decide)
    · simp only [Bool.not_eq_true] at hcat
      refine ⟨by simp [NewFromJSON, FromSubType, hcat, Result.Succeeded], ?_⟩
      simp only [NewFromJSON, FromSubType, hcat]
      exact append_ne_empty_of_left_pos "error creating key from sub type " _ (by decide)

/-- Witness for C2 at the concrete catalog containing sub-type 5. -/
theorem c2_errors_captured_inside_result_witness :
    ((7 : Int) ≠ 0)
    ∧ ((NewFromJSON (fun id => id == 5) (.parsed ⟨5, 42, 7, .null⟩)).Succeeded = false
        ∧ (NewFromJSON (fun id => id == 5)
            (.parsed ⟨5, 42, 7, .null⟩)).errorDesc ≠ "") :=
  ⟨by decide,
   (c2_errors_captured_inside_result (fun id => id == 5)).2.2.2.2.1
     ⟨5, 42, 7, .null⟩ (by decide)⟩

/-- C3: Succeeded is true exactly when the error code is zero, for every
Result and after every sequence of the mutators SetKey, SetErrorCode,
SetErrorDesc, SetValue. -/
theorem c3_succeeded_iff_error_code_zero (r : Result) (ops : List ResultOp) :
    (applyOps r ops).Succeeded = true ↔ (applyOps r ops).errorCode = 0 := by
  simp [Result.Succeeded]

/-- C4: the tag codec round-trips: for discriminator d in {0,1} and
sequence s below 2^48, decoding the tag (d << 56) | s recovers exactly
(d, s). -/
theorem c4_tag_codec_roundtrip (d s : Nat) (hd : d = 0 ∨ d = 1)
    (hs : s < 2 ^ 48) :
    decodeDataType (encodeTag d s) = d ∧ decodeSequence (encodeTag d s) = s := by
  have hs56 : s < 2 ^ 56 := lt_trans hs (by norm_num)
  have henc : encodeTag d s = 2 ^ 56 * d + s := by
    rw [encodeTag, Nat.shiftLeft_eq, Nat.mul_comm, Nat.mul_add_lt_is_or hs56]
  have hd2 : d < 2 := by rcases hd with h | h <;> omega
  constructor
  · rw [decodeDataType, henc, Nat.shiftRight_eq_div_pow]
    have hdiv : (2 ^ 56 * d + s) / 2 ^ 56 = d := by
      rw [Nat.mul_add_div (by norm_num), Nat.div_eq_of_lt hs56]
      omega
    rw [hdiv]
    have h255 : (0xff : Nat) = 2 ^ 8 - 1 := by norm_num
    rw [h255, Nat.and_pow_two_sub_one_eq_mod]
    omega
  · rw [decodeSequence, henc]
    have hmask : (0x0000ffffffffffff : Nat) = 2 ^ 48 - 1 := by norm_num
    rw [hmask, Nat.and_pow_two_sub_one_eq_mod]
    omega

/-- Witness for C4 at discriminator 1 and sequence 42. -/
theorem c4_tag_codec_roundtrip_witness :
    ((1 : Nat) = 0 ∨ (1 : Nat) = 1) ∧ (42 : Nat) < 2 ^ 48
    ∧ (decodeDataType (encodeTag 1 42) = 1 ∧ decodeSequence (encodeTag 1 42) = 42) :=
  ⟨Or.inr rfl, by norm_num, c4_tag_codec_roundtrip 1 42 (Or.inr rfl) (by norm_num)⟩

/-- C9: for a Result whose key is catalog-valid and whose value is a
JSON-stable scalar, marshalling wraps the value one level inside a
`{"value": ...}` object and decoding the marshalled envelope recovers the
key sub-type, tag, error code, and value exactly. -/
theorem c9_marshal_decode_roundtrip (cat : Nat → Bool) (r : Result) (k : Key)
    (hk : r.key = some k) (hcat : cat k.subType = true)
    (_hscalar : r.value.isScalar = true) :
    ∃ env, r.MarshalJSON = some env
      ∧ env.Value = .obj [("value", r.value)]
      ∧ (NewFromJSON cat (.parsed env)).key = some k
      ∧ (NewFromJSON cat (.parsed env)).tag = r.tag
      ∧ (NewFromJSON cat (.parsed env)).errorCode = r.errorCode
      ∧ (NewFromJSON cat (.parsed env)).value = r.value := by
  refine ⟨⟨k.subType, r.tag, r.errorCode, .obj [("value", r.value)]⟩, ?_, rfl, ?_⟩
  · simp [Result.MarshalJSON, hk]
  · simp [NewFromJSON, FromSubType, hcat, lookupField]

/-- Witness for C9 at a concrete succeeded Result with boolean value. -/
theorem c9_marshal_decode_roundtrip_witness :
    ((Result.New (some ⟨5⟩) 42 0 "" (.bool true)).key = some (⟨5⟩ : Key)
      ∧ (fun id => id == 5) (Key.subType ⟨5⟩) = true
      ∧ (Result.New (some ⟨5⟩) 42 0 "" (.bool true)).value.isScalar = true)
    ∧ ∃ env, (Result.New (some ⟨5⟩) 42 0 "" (.bool true)).MarshalJSON = some env
      ∧ env.Value = .obj [("value", (Result.New (some ⟨5⟩) 42 0 "" (.bool true)).value)]
      ∧ (NewFromJSON (fun id => id == 5) (.parsed env)).key = some (⟨5⟩ : Key)
      ∧ (NewFromJSON (fun id => id == 5) (.parsed env)).tag
          = (Result.New (some ⟨5⟩) 42 0 "" (.bool true)).tag
      ∧ (NewFromJSON (fun id => id == 5) (.parsed env)).errorCode
          = (Result.New (some ⟨5⟩) 42 0 "" (.bool true)).errorCode
      ∧ (NewFromJSON (fun id => id == 5) (.parsed env)).value
          = (Result.New (some ⟨5⟩) 42 0 "" (.bool true)).value :=
  ⟨⟨rfl, rfl, rfl⟩,
   c9_marshal_decode_roundtrip (fun id => id == 5)
     (Result.New (some ⟨5⟩) 42 0 "" (.bool true)) ⟨5⟩ rfl rfl rfl⟩

/-! ## Camera video callback lifecycle (src/example/example.go, camera module)

The camera keeps a map `callbacks map[token.Token]VideoCallback` guarded by
a mutex; `AddVideoCallback` rejects a nil callback, takes the next token
from the generator, inserts the callback, and sends the start-video bridge
event exactly when the map size became 1; `RemoveVideoCallback` fails for
an unregistered token, deletes the entry, and sends the stop-video event
exactly when the map became empty.  The token generator is not under src/;
modelled from the spec: tokens are monotonically generated and never
reused, so each `Next` returns a fresh token (here: a counter).  The
bridge `SendEvent` is the external collaborator; its calls are recorded in
an event log and acknowledged. -/

/-- Bridge events sent by the camera callback lifecycle. -/
inductive CamEvent where
  | startVideo
  | stopVideo
deriving DecidableEq, Repr

/-- Camera state relevant to the video-callback lifecycle.  `callbacks` is
the map modelled as an association list with unique keys (every key below
`nextToken`, inserts always use a fresh token); `events` is the log of
bridge events sent.  `α` is the type of callback values. -/
structure CameraState (α : Type) where
  nextToken : Nat
  callbacks : List (Nat × α)
  events : List CamEvent

/-- A camera with no callbacks registered and nothing sent. -/
def initCamera (α : Type) : CameraState α :=
  ⟨0, [], []⟩

/-- `Camera.AddVideoCallback`: nil callback (`none`) is rejected with the
zero token and an error before anything else happens; otherwise the next
token is generated, the callback stored, and the start-video event sent
when this was the first callback.  Returns (new state, token, error). -/
def AddVideoCallback {α : Type} (c : CameraState α) (vc : Option α) :
    CameraState α × Nat × Option String :=
  match vc with
  | none => (c, 0, some "callback must not be nil")
  | some cb =>
      let t := c.nextToken
      let callbacks := c.callbacks ++ [(t, cb)]
      if callbacks.length = 1 then
        ({ nextToken := t + 1, callbacks := callbacks,
           events := c.events ++ [.startVideo] }, t, none)
      else
        ({ nextToken := t + 1, callbacks := callbacks,
           events := c.events }, t, none)

/-- `Camera.RemoveVideoCallback`: unknown token is an error; otherwise the
entry is deleted and the stop-video event sent when the map became empty.
Returns (new state, error). -/
def RemoveVideoCallback {α : Type} (c : CameraState α) (t : Nat) :
    CameraState α × Option String :=
  match c.callbacks.lookup t with
  | none => (c, some "no callback added for token")
  | some _ =>
      let callbacks := c.callbacks.filter fun p => p.1 != t
      if callbacks.length = 0 then
        ({ c with callbacks := callbacks
                  events := c.events ++ [.stopVideo] }, none)
      else
        ({ c with callbacks := callbacks }, none)

/-- Run `n` AddVideoCallback calls with the given (non-nil) callbacks. -/
def runAdds {α : Type} (cbs : Nat → α) : Nat → CameraState α
  | 0 => initCamera α
  | n + 1 => (AddVideoCallback (runAdds cbs n) (some (cbs n))).1

/-- Run RemoveVideoCallback for each listed token in order; the Bool
records whether every removal succeeded. -/
def runRemoves {α : Type} : List Nat → CameraState α → CameraState α × Bool
  | [], c => (c, true)
  | t :: ts, c =>
      let step := RemoveVideoCallback c t
      let rest := runRemoves ts step.1
      (rest.1, step.2.isNone && rest.2)

lemma lookup_isSome_of_mem_keys {α : Type} :
    ∀ (l : List (Nat × α)) (a : Nat), a ∈ l.map Prod.fst →
      ∃ v, l.lookup a = some v := by
  intro l
  induction l with
  | nil => intro a h; simp at h
  | cons p l ih =>
      intro a h
      by_cases hpa : a = p.1
      · exact ⟨p.2, by simp [List.lookup, hpa]⟩
      · have : a ∈ l.map Prod.fst := by
          rcases List.mem_map.mp h with ⟨q, hq, hfst⟩
          rcases List.mem_cons.mp hq with h1 | h2
          · exact absurd (hfst ▸ congrArg Prod.fst h1) hpa
          · exact List.mem_map.mpr ⟨q, h2, hfst⟩
        rcases ih a this with ⟨v, hv⟩
        refine ⟨v, ?_⟩
        simp [List.lookup, beq_eq_false_iff_ne.mpr (Ne.symm (hpa ∘ Eq.symm)), hv]

lemma map_fst_filter_ne {α : Type} (t : Nat) :
    ∀ l : List (Nat × α),
      (l.filter fun p => p.1 != t).map Prod.fst
        = (l.map Prod.fst).filter fun x => x != t := by
  intro l
  induction l with
  | nil => rfl
  | cons p l ih =>
      by_cases hp : p.1 = t
      · simp [List.filter_cons, hp, ih]
      · simp [List.filter_cons, hp, ih]

/-- Draining: removing, one by one, a permutation of exactly the registered
tokens empties the table, succeeds at every step, and appends exactly one
stop-video event at the last removal. -/
lemma runRemoves_drain {α : Type} :
    ∀ (ts : List Nat) (c : CameraState α),
      (c.callbacks.map Prod.fst).Nodup →
      ts.Perm (c.callbacks.map Prod.fst) →
      ts ≠ [] →
      runRemoves ts c
        = (⟨c.nextToken, [], c.events ++ [.stopVideo]⟩, true) := by
  intro ts
  induction ts with
  | nil => intro c _ _ hne; exact absurd rfl hne
  | cons t ts ih =>
      intro c hnodup hperm _
      have htmem : t ∈ c.callbacks.map Prod.fst :=
        hperm.mem_iff.mp (List.mem_cons_self t ts)
      rcases lookup_isSome_of_mem_keys c.callbacks t htmem with ⟨v, hv⟩
      have hts_nodup : (t :: ts).Nodup := hperm.symm.nodup hnodup
      have htnotin : t ∉ ts := (List.nodup_cons.mp hts_nodup).1
      have hts_nodup2 : ts.Nodup := (List.nodup_cons.mp hts_nodup).2
      have hkeys' : ((c.callbacks.filter fun p => p.1 != t).map Prod.fst).Perm ts := by
        rw [map_fst_filter_ne]
        have h1 : ((c.callbacks.map Prod.fst).filter fun x => x != t).Perm
            ((t :: ts).filter fun x => x != t) := (hperm.symm.filter _)
        have h2 : ((t :: ts).filter fun x => x != t) = ts := by
          rw [List.filter_cons]
          simp only [bne_self_eq_false, Bool.false_eq_true, if_false]
          exact List.filter_eq_self.mpr fun a ha => by
            simp [bne_iff_ne]
            intro haeq
            exact htnotin (haeq ▸ ha)
        exact h2 ▸ h1
      cases ts with
      | nil =>
          have hlen : (c.callbacks.filter fun p => p.1 != t).length = 0 := by
            have := hkeys'.length_eq
            simpa using this
          have hempty : (c.callbacks.filter fun p => p.1 != t) = [] :=
            List.eq_nil_of_length_eq_zero hlen
          simp [runRemoves, RemoveVideoCallback, hv, hempty]
      | cons t2 ts2 =>
          have hlen : (c.callbacks.filter fun p => p.1 != t).length
              = (t2 :: ts2).length := by
            have h := hkeys'.length_eq
            rwa [List.length_map] at h
          have hlenne : ¬ (c.callbacks.filter fun p => p.1 != t).length = 0 := by
            rw [hlen]
            simp
          have hrec := ih ⟨c.nextToken, c.callbacks.filter fun p => p.1 != t, c.events⟩
            (hkeys'.symm.nodup hts_nodup2) hkeys'.symm (by simp)
          have hstep : RemoveVideoCallback c t
              = (⟨c.nextToken, c.callbacks.filter fun p => p.1 != t, c.events⟩, none) := by
            simp only [RemoveVideoCallback, hv, if_neg hlenne]
          have hgoal : runRemoves (t :: t2 :: ts2) c
              = ((runRemoves (t2 :: ts2) (RemoveVideoCallback c t).1).1,
                 (RemoveVideoCallback c t).2.isNone
                   && (runRemoves (t2 :: ts2) (RemoveVideoCallback c t).1).2) := rfl
          rw [hgoal]
          simp only [hstep, hrec, Option.isNone_none, Bool.true_and]

/-- Adding n callbacks from the initial camera: tokens 0..n-1 are handed
out in order, and exactly one start-video event was sent (at the first
add) whenever n is at least 1. -/
lemma runAdds_spec {α : Type} (cbs : Nat → α) :
    ∀ n : Nat, runAdds cbs n
      = ⟨n, (List.range n).map fun i => (i, cbs i),
          if n = 0 then [] else [.startVideo]⟩ := by
  intro n
  induction n with
  | zero => rfl
  | succ n ih =>
      rw [runAdds, ih]
      cases n with
      | zero => simp [AddVideoCallback, List.range_succ]
      | succ m =>
          have hlen : (((List.range (m + 1)).map fun i => (i, cbs i))
              ++ [(m + 1, cbs (m + 1))]).length = m + 2 := by
            simp
          simp only [AddVideoCallback, hlen]
          simp [List.range_succ]

/-- C8: after N successful adds from a camera with no callbacks, followed
by the N matching removals in any order, the bridge event log is exactly
[start-video, stop-video]: the native video subscription was installed
exactly once (at the 0-to-1 add) and torn down exactly once (at the N-to-0
removal), with no events from intermediate adds or removes; every removal
succeeded. -/
theorem c8_video_subscription_refcount {α : Type} (cbs : Nat → α) (N : Nat)
    (hN : 1 ≤ N) (ts : List Nat) (hperm : ts.Perm (List.range N)) :
    (runRemoves ts (runAdds cbs N)).1.events = [.startVideo, .stopVideo]
    ∧ (runRemoves ts (runAdds cbs N)).2 = true
    ∧ (∀ k, 1 ≤ k → k ≤ N → (runAdds cbs k).events = [.startVideo]) := by
  have hadds0 := runAdds_spec cbs N
  have hadds : runAdds cbs N
      = ⟨N, (List.range N).map fun i => (i, cbs i), [.startVideo]⟩ := by
    rw [hadds0, if_neg (by omega : ¬ N = 0)]
  have hkeys : (runAdds cbs N).callbacks.map Prod.fst = List.range N := by
    rw [hadds]
    simp only [List.map_map]
    rw [show (Prod.fst ∘ fun i => (i, cbs i)) = id from rfl, List.map_id]
  have hnodup : ((runAdds cbs N).callbacks.map Prod.fst).Nodup := by
    rw [hkeys]; exact List.nodup_range N
  have hperm2 : ts.Perm ((runAdds cbs N).callbacks.map Prod.fst) := by
    rw [hkeys]; exact hperm
  have htsne : ts ≠ [] := by
    intro h
    have hle := hperm.length_eq
    rw [h] at hle
    simp at hle
    omega
  have hdrain := runRemoves_drain ts (runAdds cbs N) hnodup hperm2 htsne
  refine ⟨?_, ?_, ?_⟩
  · rw [hdrain]
    show (runAdds cbs N).events ++ [.stopVideo] = [.startVideo, .stopVideo]
    rw [hadds]
    rfl
  · rw [hdrain]
  · intro k hk1 _
    rw [runAdds_spec cbs k]
    show (if k = 0 then [] else [CamEvent.startVideo]) = [CamEvent.startVideo]
    exact if_neg (by omega)

/-- Witness for C8 at N = 2 with removal order reversed. -/
theorem c8_video_subscription_refcount_witness :
    (1 ≤ 2 ∧ ([1, 0] : List Nat).Perm (List.range 2))
    ∧ ((runRemoves [1, 0] (runAdds (fun _ => ()) 2)).1.events
        = [.startVideo, .stopVideo]
      ∧ (runRemoves [1, 0] (runAdds (fun _ => ()) 2)).2 = true
      ∧ (∀ k, 1 ≤ k → k ≤ 2 → (runAdds (fun _ => ()) k).events = [.startVideo])) :=
  ⟨⟨by omega, by decide⟩,
   c8_video_subscription_refcount (fun _ => ()) 2 (by omega) [1, 0] (by decide)⟩

/-- C10: AddVideoCallback with a nil callback returns the zero token and
an error, and leaves the camera state completely unchanged: no callback
entry added, no token consumed from the generator, no event sent. -/
theorem c10_nil_callback_rejected_unchanged {α : Type} (c : CameraState α) :
    AddVideoCallback c none = (c, 0, some "callback must not be nil") :=
  rfl

/-! ## Connection orchestration (src/unnamed/part_000, package manager)

`Connection.Start` registers a status listener for the air-link connection
key, runs discovery (`Finder.Find` with a 30 second timeout), sends the
ACK (fire-and-forget, error ignored), then sends the connection event with
sub-types close, set-IP, set-port, open through the bridge, returning the
error of the first failing send, and finally blocks in
`waitForConnectionStatusChange`.  The bridge, finder and listener are
external collaborators, modelled as an environment of responses; the calls
Start issues are recorded in a trace. -/

/-- Connection event sub-type constants (iota order in the source). -/
def subTypeConnectionOpen : Nat := 0

/-- Close connection sub-type. -/
def subTypeConnectionClose : Nat := 1

/-- Set-IP connection sub-type. -/
def subTypeConnectionSetIP : Nat := 2

/-- Set-port connection sub-type. -/
def subTypeConnectionSetPort : Nat := 3

/-- Event types used by the connection orchestration. -/
inductive EventType where
  | connection
deriving DecidableEq, Repr

/-- A mutable event envelope: numeric type plus rewritable sub-type. -/
structure GoEvent where
  typ : EventType
  subType : Nat
deriving DecidableEq, Repr

/-- Modelled from the spec: the event package is not under src/; an Event
is constructed from a type constant with the sub-type defaulting to 0. -/
def GoEvent.newFromType (t : EventType) : GoEvent :=
  ⟨t, 0⟩

/-- Modelled from the spec: `ResetSubType` rewrites only the sub-type. -/
def GoEvent.resetSubType (e : GoEvent) (st : Nat) : GoEvent :=
  { e with subType := st }

/-- Discovery beacon: source address and application identifier. -/
structure Beacon where
  sourceIp : String
  appId : Nat
deriving DecidableEq, Repr

/-- Calls Start issues to its collaborators, in order. -/
inductive BridgeCmd where
  | addStatusListener
  | find
  | sendACK (ip : String) (appId : Nat)
  | sendEvent (e : GoEvent)
  | sendEventWithString (e : GoEvent) (s : String)
  | sendEventWithUint64 (e : GoEvent) (v : Nat)
  | waitStatus
  | removeStatusListener
deriving DecidableEq, Repr

/-- How a run of Start ends: returns nil, returns an error, or never
returns (the status wait blocks forever). -/
inductive StartOutcome where
  | ok
  | err (e : String)
  | blocked
deriving DecidableEq, Repr

/-- Environment of collaborator responses for one run of Start:
the listener-registration result, the discovery result, the result of each
bridge send, the value of the `connected` flag when the status wait takes
its snapshot, and the flag values observed at successive condition-variable
wakeups. -/
structure StartEnv where
  addListenerRes : Except String Nat
  findRes : Except String Beacon
  closeRes : Except String Unit
  setIPRes : Except String Unit
  setPortRes : Except String Unit
  openRes : Except String Unit
  waitSnapshot : Bool
  statusObs : List Bool

/-- `waitForConnectionStatusChange`: snapshot the `connected` flag under
the lock, then loop — block on the condition variable and re-check the
flag after every wakeup — until the observed value differs from the
snapshot.  Returns the index of the unblocking wakeup, or none if no
observation ever differs (the waiter blocks forever). -/
def waitIndex (current : Bool) : List Bool → Option Nat
  | [] => none
  | v :: obs =>
      if v != current then some 0 else (waitIndex current obs).map (· + 1)

/-- `Connection.Start`: the trace of issued calls and the outcome. -/
def ConnectionStart (env : StartEnv) : List BridgeCmd × StartOutcome :=
  match env.addListenerRes with
  | .error e => ([.addStatusListener], .err e)
  | .ok _tok =>
      match env.findRes with
      | .error e => ([.addStatusListener, .find], .err e)
      | .ok b =>
          let pre : List BridgeCmd :=
            [.addStatusListener, .find, .sendACK b.sourceIp b.appId]
          let e1 := (GoEvent.newFromType .connection).resetSubType subTypeConnectionClose
          match env.closeRes with
          | .error e => (pre ++ [.sendEvent e1], .err e)
          | .ok _ =>
              let e2 := e1.resetSubType subTypeConnectionSetIP
              match env.setIPRes with
              | .error e =>
                  (pre ++ [.sendEvent e1, .sendEventWithString e2 b.sourceIp], .err e)
              | .ok _ =>
                  let e3 := e2.resetSubType subTypeConnectionSetPort
                  match env.setPortRes with
                  | .error e =>
                      (pre ++ [.sendEvent e1, .sendEventWithString e2 b.sourceIp,
                        .sendEventWithUint64 e3 10607], .err e)
                  | .ok _ =>
                      let e4 := e3.resetSubType subTypeConnectionOpen
                      match env.openRes with
                      | .error e =>
                          (pre ++ [.sendEvent e1, .sendEventWithString e2 b.sourceIp,
                            .sendEventWithUint64 e3 10607, .sendEvent e4], .err e)
                      | .ok _ =>
                          (pre ++ [.sendEvent e1, .sendEventWithString e2 b.sourceIp,
                            .sendEventWithUint64 e3 10607, .sendEvent e4, .waitStatus],
                           match waitIndex env.waitSnapshot env.statusObs with
                           | some _ => .ok
                           | none => .blocked)

/-- The close event as sent by Start. -/
def closeEvent : GoEvent := ⟨.connection, subTypeConnectionClose⟩

/-- The set-IP event as sent by Start. -/
def setIPEvent : GoEvent := ⟨.connection, subTypeConnectionSetIP⟩

/-- The set-port event as sent by Start. -/
def setPortEvent : GoEvent := ⟨.connection, subTypeConnectionSetPort⟩

/-- The open event as sent by Start. -/
def openEvent : GoEvent := ⟨.connection, subTypeConnectionOpen⟩

/-- The calls Start makes before the bridge event sequence. -/
def startPrefix (b : Beacon) : List BridgeCmd :=
  [.addStatusListener, .find, .sendACK b.sourceIp b.appId]

lemma waitIndex_none_of_const (current : Bool) :
    ∀ obs : List Bool, (∀ v ∈ obs, v = current) → waitIndex current obs = none := by
  intro obs
  induction obs with
  | nil => intro _; rfl
  | cons a l ih =>
      intro h
      have ha : a = current := h a (List.mem_cons_self a l)
      have hl : ∀ v ∈ l, v = current := fun v hv => h v (List.mem_cons_of_mem a hv)
      rw [waitIndex, if_neg (by simp [ha]), ih hl]
      rfl

lemma waitIndex_some_spec (current : Bool) :
    ∀ (obs : List Bool) (i : Nat), waitIndex current obs = some i →
      ∃ v, obs[i]? = some v ∧ v ≠ current ∧ ∀ j, j < i → obs[j]? = some current := by
  intro obs
  induction obs with
  | nil => intro i h; exact absurd h (by simp [waitIndex])
  | cons a l ih =>
      intro i h
      rw [waitIndex] at h
      by_cases hne : a ≠ current
      · rw [if_pos (by simp [bne_iff_ne, hne])] at h
        cases h
        exact ⟨a, by simp, hne, fun j hj => absurd hj (Nat.not_lt_zero j)⟩
      · push_neg at hne
        rw [if_neg (by simp [hne])] at h
        rcases Option.map_eq_some'.mp h with ⟨i', hi', hadd⟩
        rcases ih i' hi' with ⟨v, hv, hvne, hbelow⟩
        refine ⟨v, ?_, hvne, ?_⟩
        · rw [← hadd]
          simpa using hv
        · intro j hj
          cases j with
          | zero => simp [hne]
          | succ j' =>
              have : j' < i' := by omega
              simpa using hbelow j' this

/-- C5: with discovery succeeded and the ACK sent, Start issues exactly
the four bridge events close, set-IP, set-port, open, in that literal
order; if a step errors Start stops there, returning that error, without
issuing any later step; and only after the open event succeeds does Start
block on the connection-status wait. -/
theorem c5_start_close_setip_setport_open_order (env : StartEnv) (tok : Nat)
    (b : Beacon) (hadd : env.addListenerRes = .ok tok)
    (hfind : env.findRes = .ok b) :
    (∀ e, env.closeRes = .error e →
        ConnectionStart env = (startPrefix b ++ [.sendEvent closeEvent], .err e))
    ∧ (∀ e, env.closeRes = .ok () → env.setIPRes = .error e →
        ConnectionStart env = (startPrefix b
          ++ [.sendEvent closeEvent, .sendEventWithString setIPEvent b.sourceIp],
          .err e))
    ∧ (∀ e, env.closeRes = .ok () → env.setIPRes = .ok () →
        env.setPortRes = .error e →
        ConnectionStart env = (startPrefix b
          ++ [.sendEvent closeEvent, .sendEventWithString setIPEvent b.sourceIp,
            .sendEventWithUint64 setPortEvent 10607], .err e))
    ∧ (∀ e, env.closeRes = .ok () → env.setIPRes = .ok () →
        env.setPortRes = .ok () → env.openRes = .error e →
        ConnectionStart env = (startPrefix b
          ++ [.sendEvent closeEvent, .sendEventWithString setIPEvent b.sourceIp,
            .sendEventWithUint64 setPortEvent 10607, .sendEvent openEvent], .err e))
    ∧ (env.closeRes = .ok () → env.setIPRes = .ok () → env.setPortRes = .ok () →
        env.openRes = .ok () →
        (ConnectionStart env).1 = startPrefix b
          ++ [.sendEvent closeEvent, .sendEventWithString setIPEvent b.sourceIp,
            .sendEventWithUint64 setPortEvent 10607, .sendEvent openEvent,
            .waitStatus]
        ∧ ((ConnectionStart env).2 = .ok ∨ (ConnectionStart env).2 = .blocked)) := by
  refine ⟨?_, ?_, ?_, ?_, ?_⟩
  · intro e hclose
    simp [ConnectionStart, hadd, hfind, hclose, startPrefix, closeEvent,
      GoEvent.newFromType, GoEvent.resetSubType]
  · intro e hclose hip
    simp [ConnectionStart, hadd, hfind, hclose, hip, startPrefix, closeEvent,
      setIPEvent, GoEvent.newFromType, GoEvent.resetSubType]
  · intro e hclose hip hport
    simp [ConnectionStart, hadd, hfind, hclose, hip, hport, startPrefix,
      closeEvent, setIPEvent, setPortEvent, GoEvent.newFromType,
      GoEvent.resetSubType]
  · intro e hclose hip hport hopen
    simp [ConnectionStart, hadd, hfind, hclose, hip, hport, hopen, startPrefix,
      closeEvent, setIPEvent, setPortEvent, openEvent, GoEvent.newFromType,
      GoEvent.resetSubType]
  · intro hclose hip hport hopen
    constructor
    · simp [ConnectionStart, hadd, hfind, hclose, hip, hport, hopen, startPrefix,
        closeEvent, setIPEvent, setPortEvent, openEvent, GoEvent.newFromType,
        GoEvent.resetSubType]
    · simp only [ConnectionStart, hadd, hfind, hclose, hip, hport, hopen]
      cases waitIndex env.waitSnapshot env.statusObs with
      | none => exact Or.inr rfl
      | some i => exact Or.inl rfl

/-- Environment where every collaborator call succeeds and the status
listener reports the transition on the first wakeup. -/
def envAllOk : StartEnv :=
  { addListenerRes := .ok 1, findRes := .ok ⟨"192.168.1.10", 99⟩,
    closeRes := .ok (), setIPRes := .ok (), setPortRes := .ok (),
    openRes := .ok (), waitSnapshot := false, statusObs := [true] }

/-- Witness for C5 in the all-success environment. -/
theorem c5_start_close_setip_setport_open_order_witness :
    (envAllOk.addListenerRes = .ok 1
      ∧ envAllOk.findRes = .ok (⟨"192.168.1.10", 99⟩ : Beacon)
      ∧ envAllOk.closeRes = .ok () ∧ envAllOk.setIPRes = .ok ()
      ∧ envAllOk.setPortRes = .ok () ∧ envAllOk.openRes = .ok ())
    ∧ ((ConnectionStart envAllOk).1 = startPrefix ⟨"192.168.1.10", 99⟩
        ++ [.sendEvent closeEvent,
          .sendEventWithString setIPEvent (Beacon.sourceIp ⟨"192.168.1.10", 99⟩),
          .sendEventWithUint64 setPortEvent 10607, .sendEvent openEvent,
          .waitStatus]
      ∧ ((ConnectionStart envAllOk).2 = .ok
          ∨ (ConnectionStart envAllOk).2 = .blocked)) :=
  ⟨⟨rfl, rfl, rfl, rfl, rfl, rfl⟩,
   (c5_start_close_setip_setport_open_order envAllOk 1 ⟨"192.168.1.10", 99⟩
     rfl rfl).2.2.2.2 rfl rfl rfl rfl⟩

/-- C6: the status waiter, entered while the monitored flag holds the
snapshot value, unblocks exactly at the first wakeup that observes a value
different from the snapshot — never at a spurious wakeup that observes the
snapshot value — and if no wakeup ever observes a different value it never
unblocks. -/
theorem c6_wait_unblocks_only_on_transition (current : Bool) (obs : List Bool) :
    (∀ i, waitIndex current obs = some i →
        ∃ v, obs[i]? = some v ∧ v ≠ current
          ∧ ∀ j, j < i → obs[j]? = some current)
    ∧ ((∀ v ∈ obs, v = current) → waitIndex current obs = none) :=
  ⟨fun i h => waitIndex_some_spec current obs i h,
   fun h => waitIndex_none_of_const current obs h⟩

/-- Witness for C6: snapshot false, two spurious wakeups, then the
transition to true unblocks at index 2. -/
theorem c6_wait_unblocks_only_on_transition_witness :
    (waitIndex false [false, false, true] = some 2)
    ∧ (∃ v, ([false, false, true])[2]? = some v ∧ v ≠ false
        ∧ ∀ j, j < 2 → ([false, false, true])[j]? = some false)
    ∧ ((∀ v ∈ [false, false], v = false) → waitIndex false [false, false] = none) :=
  ⟨rfl,
   (c6_wait_unblocks_only_on_transition false [false, false, true]).1 2 rfl,
   (c6_wait_unblocks_only_on_transition false [false, false]).2⟩

/-- Environment where every call succeeds but the connection status never
changes from the snapshot: only spurious wakeups occur. -/
def envNeverConnects : StartEnv :=
  { addListenerRes := .ok 1, findRes := .ok ⟨"192.168.1.10", 99⟩,
    closeRes := .ok (), setIPRes := .ok (), setPortRes := .ok (),
    openRes := .ok (), waitSnapshot := false, statusObs := [false, false, false] }

/-- Counterexample to C7: in an environment where every step succeeds but
the status never transitions, Start does not return a timeout error — it
blocks forever — and it never issues the listener removal. -/
theorem c7_no_status_wait_deadline_counterexample :
    (ConnectionStart envNeverConnects).2 = .blocked
    ∧ (∀ e, (ConnectionStart envNeverConnects).2 ≠ .err e)
    ∧ BridgeCmd.removeStatusListener ∉ (ConnectionStart envNeverConnects).1 := by
  refine ⟨rfl, ?_, ?_⟩
  · intro e h
    rw [show (ConnectionStart envNeverConnects).2 = .blocked from rfl] at h
    exact StartOutcome.noConfusion h
  · decide

/-- C7 amended: Start propagates a discovery failure as its error (the
discovery wait itself is bounded, 30 seconds in the source), but the
status wait enforces no deadline: when the status flag never differs from
the snapshot Start blocks forever instead of returning a timeout error,
and Start never removes the status listener it registered (removal happens
only in Stop). -/
theorem c7_discovery_error_propagates_status_wait_unbounded (env : StartEnv) :
    (∀ tok e, env.addListenerRes = .ok tok → env.findRes = .error e →
        ConnectionStart env = ([.addStatusListener, .find], .err e))
    ∧ ((∀ v ∈ env.statusObs, v = env.waitSnapshot) →
        ∀ tok b, env.addListenerRes = .ok tok → env.findRes = .ok b →
          env.closeRes = .ok () → env.setIPRes = .ok () →
          env.setPortRes = .ok () → env.openRes = .ok () →
          (ConnectionStart env).2 = .blocked)
    ∧ BridgeCmd.removeStatusListener ∉ (ConnectionStart env).1 := by
  refine ⟨?_, ?_, ?_⟩
  · intro tok e hadd hfind
    simp [ConnectionStart, hadd, hfind]
  · intro hconst tok b hadd hfind hclose hip hport hopen
    simp only [ConnectionStart, hadd, hfind, hclose, hip, hport, hopen]
    rw [waitIndex_none_of_const env.waitSnapshot env.statusObs hconst]
  · rcases env with ⟨addRes, findRes, closeRes, ipRes, portRes, openRes, snap, obs⟩
    cases addRes with
    | error e => simp [ConnectionStart]
    | ok tok =>
        cases findRes with
        | error e => simp [ConnectionStart]
        | ok b =>
            cases closeRes with
            | error e => simp [ConnectionStart, startPrefix]
            | ok u =>
                cases ipRes with
                | error e => simp [ConnectionStart, startPrefix]
                | ok u =>
                    cases portRes with
                    | error e => simp [ConnectionStart, startPrefix]
                    | ok u =>
                        cases openRes with
                        | error e => simp [ConnectionStart, startPrefix]
                        | ok u => simp [ConnectionStart, startPrefix]

/-- Witness for the amended C7: discovery error propagates; the
never-connecting environment blocks with no listener removal. -/
theorem c7_discovery_error_propagates_status_wait_unbounded_witness :
    ((StartEnv.mk (.ok 1) (.error "discovery timeout") (.ok ()) (.ok ())
        (.ok ()) (.ok ()) false []).addListenerRes = .ok 1
      ∧ (StartEnv.mk (.ok 1) (.error "discovery timeout") (.ok ()) (.ok ())
          (.ok ()) (.ok ()) false []).findRes = .error "discovery timeout")
    ∧ ConnectionStart (StartEnv.mk (.ok 1) (.error "discovery timeout")
        (.ok ()) (.ok ()) (.ok ()) (.ok ()) false [])
        = ([.addStatusListener, .find], .err "discovery timeout")
    ∧ ((∀ v ∈ envNeverConnects.statusObs, v = envNeverConnects.waitSnapshot)
      ∧ (ConnectionStart envNeverConnects).2 = .blocked) :=
  ⟨⟨rfl, rfl⟩,
   (c7_discovery_error_propagates_status_wait_unbounded
     (StartEnv.mk (.ok 1) (.error "discovery timeout") (.ok ()) (.ok ())
       (.ok ()) (.ok ()) false [])).1 1 "discovery timeout" rfl rfl,
   by decide,
   (c7_discovery_error_propagates_status_wait_unbounded envNeverConnects).2.1
     (by decide) 1 ⟨"192.168.1.10", 99⟩ rfl rfl rfl rfl rfl rfl⟩

end Robomaster
